import Mathlib

/-
Verification of the danilib profiler core (dani_profiler.h, with dani_base.h
providing the integer types and the Assert macro).

Shallow embedding conventions:
  - u64 values are natural numbers kept below W = 2 ^ 64; u64 arithmetic is
    add64 / sub64 / mul64, which reduce modulo W exactly as C unsigned
    arithmetic does (including underflow wrap on subtraction).
  - u32 values are naturals kept below 2 ^ 32.
  - The global profiler struct __DANI_PROFILER becomes the structure
    dani_profiler, passed and returned explicitly.
  - Timer and page-fault reads (ReadStartCPUTimer, ReadEndCPUTimer,
    ReadOSPageFaultCount) are modelled as values drawn from caller-supplied
    read streams; each begin/end call consumes one stream position.
  - The build configuration modelled is DANI_PROFILER_ENABLE_ALL with
    NDEBUG undefined, so page-fault and min/max fields exist and the
    Assert macro traps (modelled by Option, none = trap).
-/

/-- Modulus of u64 arithmetic, 2 to the power 64. -/
def W : Nat := 18446744073709551616

theorem W_eq_pow : W = 2 ^ 64 := by norm_num [W]

/-- u64 addition: wraps modulo 2 to the 64. -/
def add64 (a b : Nat) : Nat := (a + b) % W

/-- u64 subtraction: wraps modulo 2 to the 64 on underflow, like C unsigned
subtraction. -/
def sub64 (a b : Nat) : Nat := (a % W + (W - b % W)) % W

/-- u64 multiplication: wraps modulo 2 to the 64. -/
def mul64 (a b : Nat) : Nat := (a * b) % W

/-- Table capacity, the default value of DANI_PROFILER_ENTRIES_MAX. -/
def DANI_PROFILER_ENTRIES_MAX : Nat := 1024

/-- One accumulated-statistics record, struct __DANI_PROFILER_ENTRY
(dani_profiler.h lines 110-127), in the ENABLE_ALL configuration. -/
structure dani_profiler_entry where
  inclusive_ticks : Nat
  exclusive_ticks : Nat
  hit_counter : Nat
  processed_bytes_counter : Nat
  page_fault_counter : Nat
  inclusive_ticks_min : Nat
  inclusive_ticks_max : Nat
  name : String
deriving Repr, DecidableEq

/-- One open-zone handle, struct __DANI_PROFILER_ZONE (lines 130-142). -/
structure dani_profiler_zone where
  name : String
  start_ticks : Nat
  inclusive_ticks : Nat
  start_page_faults : Nat
  entry_index : Nat
  parent_index : Nat
deriving Repr, DecidableEq

/-- The global profiler state, struct __DANI_PROFILER (lines 145-157).
The C fixed array entries[DANI_PROFILER_ENTRIES_MAX] is modelled as a total
function from indices to entries; all uses in the source stay below the
capacity. -/
structure dani_profiler where
  entries : Nat → dani_profiler_entry
  start_ticks : Nat
  end_ticks : Nat
  start_page_faults : Nat
  end_page_faults : Nat
  current_index : Nat

/-- The zero entry produced by the memset in dani_BeginProfiling; the C
name pointer is NULL, modelled by the empty string. -/
def initEntry : dani_profiler_entry :=
  { inclusive_ticks := 0, exclusive_ticks := 0, hit_counter := 0,
    processed_bytes_counter := 0, page_fault_counter := 0,
    inclusive_ticks_min := 0, inclusive_ticks_max := 0, name := "" }

/-- The freshly reset profiler: every field zeroed (dani_BeginProfiling
line 304 memsets g_dani_profiler to zero). -/
def initProfiler : dani_profiler :=
  { entries := fun _ => initEntry, start_ticks := 0, end_ticks := 0,
    start_page_faults := 0, end_page_faults := 0, current_index := 0 }

/-- dani_BeginProfiling (lines 297-318): reset all state, then record the
baseline page-fault count and the starting tick read.  The warmup timer
reads discard their values and are not modelled. -/
def dani_BeginProfiling (tick_read pf_read : Nat) : dani_profiler :=
  { initProfiler with start_page_faults := pf_read, start_ticks := tick_read }

/-- dani_EndProfiling (lines 320-326): record the ending tick read and the
ending page-fault count. -/
def dani_EndProfiling (p : dani_profiler) (tick_read pf_read : Nat) :
    dani_profiler :=
  { p with end_ticks := tick_read, end_page_faults := pf_read }

/-- dani_GetNextProfilerZoneIndex (lines 438-442).  The volatile s32
counter is modelled by its u32 bit pattern; _InterlockedIncrement
increments and returns the new value, wrapping modulo 2 ^ 32.  The Assert
(result nonzero and below capacity) traps on failure, modelled by Option:
some (new counter state, returned index) on success, none on trap. -/
def dani_GetNextProfilerZoneIndex (counter : Nat) : Option (Nat × Nat) :=
  let result := (counter + 1) % 2 ^ 32
  if result ≠ 0 ∧ result < DANI_PROFILER_ENTRIES_MAX then
    some (result, result)
  else
    none

/-- dani_BeginProfilingZone (lines 444-464).  The page-fault read and the
starting tick read are passed in as the values those reads return.  Returns
the updated global profiler and the zone handle. -/
def dani_BeginProfilingZone (p : dani_profiler) (name : String)
    (index byte_count pf_read tick_read : Nat) :
    dani_profiler × dani_profiler_zone :=
  let entry := p.entries index
  let entry2 := { entry with
    processed_bytes_counter := add64 entry.processed_bytes_counter byte_count }
  let zone : dani_profiler_zone :=
    { name := name, start_ticks := tick_read,
      inclusive_ticks := entry.inclusive_ticks,
      start_page_faults := pf_read,
      entry_index := index, parent_index := p.current_index }
  ({ p with
      entries := fun j => if j = index then entry2 else p.entries j,
      current_index := index },
   zone)

/-- dani_EndProfilingZone (lines 466-501).  The ending tick read comes
first, then the parent entry exclusive subtraction, then the entry updates
(performed on the table already holding the parent subtraction, which is
what the C pointer aliasing does when entry_index equals parent_index),
the page-fault delta, the min/max update (tested against the hit counter
before it is incremented), the hit increment, and the current index
restore. -/
def dani_EndProfilingZone (p : dani_profiler) (zone : dani_profiler_zone)
    (tick_read pf_read : Nat) : dani_profiler :=
  let elapsed_ticks := sub64 tick_read zone.start_ticks
  let entries1 := fun j =>
    if j = zone.parent_index then
      let parent := p.entries zone.parent_index
      { parent with exclusive_ticks := sub64 parent.exclusive_ticks elapsed_ticks }
    else p.entries j
  let entry := entries1 zone.entry_index
  let entry2 := { entry with
    inclusive_ticks := add64 zone.inclusive_ticks elapsed_ticks,
    exclusive_ticks := add64 entry.exclusive_ticks elapsed_ticks,
    name := zone.name,
    page_fault_counter := sub64 pf_read zone.start_page_faults,
    inclusive_ticks_min :=
      if entry.hit_counter = 0 then elapsed_ticks
      else if elapsed_ticks < entry.inclusive_ticks_min then elapsed_ticks
      else entry.inclusive_ticks_min,
    inclusive_ticks_max :=
      if entry.hit_counter = 0 then elapsed_ticks
      else if entry.inclusive_ticks_max < elapsed_ticks then elapsed_ticks
      else entry.inclusive_ticks_max,
    hit_counter := add64 entry.hit_counter 1 }
  { p with
      entries := fun j => if j = zone.entry_index then entry2 else entries1 j,
      current_index := zone.parent_index }

/-- The busy-wait loop of ReadCPUTimerFrequency (lines 255-258), with
explicit fuel: each iteration reads the OS timer (read stream position k)
and recomputes os_elapsed as a u64 difference from os_start.  Returns
some os_elapsed when the loop condition fails, none when the fuel runs
out (the C loop has not terminated within that many iterations). -/
def freqLoop (os_start os_wait_time : Nat) (osReads : Nat → Nat) :
    Nat → Nat → Nat → Option Nat
  | fuel, k, os_elapsed =>
    if os_elapsed < os_wait_time then
      match fuel with
      | 0 => none
      | fuel2 + 1 =>
        freqLoop os_start os_wait_time osReads fuel2 (k + 1)
          (sub64 (osReads k) os_start)
    else
      some os_elapsed

/-- ReadCPUTimerFrequency (lines 245-269).  os_frequency is the value
returned by ReadOSTimerFrequency, osReads the stream of ReadOSTimer
values (position 0 is the os_start read), cpu_start and cpu_end the two
CPU tick reads.  Returns none when the busy wait does not finish within
the given fuel. -/
def ReadCPUTimerFrequency (os_frequency wait_time_ms : Nat)
    (osReads : Nat → Nat) (cpu_start cpu_end fuel : Nat) : Option Nat :=
  let os_wait_time := mul64 os_frequency wait_time_ms / 1000
  let os_start := osReads 0
  match freqLoop os_start os_wait_time osReads fuel 1 0 with
  | none => none
  | some os_elapsed =>
    let cpu_elapsed := sub64 cpu_end cpu_start
    some (if os_elapsed ≠ 0 then mul64 os_frequency cpu_elapsed / os_elapsed
          else 0)

/-- Divergence of ReadCPUTimerFrequency: for every fuel bound the busy
wait is still running, i.e. the C call never returns. -/
def ReadCPUTimerFrequencyDiverges (os_frequency wait_time_ms : Nat)
    (osReads : Nat → Nat) (cpu_start cpu_end : Nat) : Prop :=
  ∀ fuel, ReadCPUTimerFrequency os_frequency wait_time_ms osReads
    cpu_start cpu_end fuel = none

/-- The per-hit averages block of dani_PrintProfilingResults
(lines 545-564): the u64 divisions of the tick totals by the hit counter,
and the exact (rational) per-hit byte and page-fault figures the f64
divisions approximate.  These values only exist inside the
hit_counter > 1 branch. -/
structure EntryAverages where
  average_inclusive : Nat
  average_exclusive : Nat
  average_bytes : Option Rat
  average_page_faults : Option Rat
deriving DecidableEq

/-- One printed entry line of dani_PrintProfilingResults (lines 524-574):
the totals always printed, the optional bandwidth block (printed when the
byte counter is nonzero), and the optional averages block (printed only
when the hit counter exceeds one). -/
structure EntryReport where
  index : Nat
  name : String
  hit_counter : Nat
  inclusive_ticks : Nat
  exclusive_ticks : Nat
  bandwidth_bytes : Option Nat
  averages : Option EntryAverages
deriving DecidableEq

/-- The body of the reporting loop for one entry (lines 525-574),
evaluated only for entries whose inclusive_ticks is nonzero. -/
def entryReport (i : Nat) (e : dani_profiler_entry) : EntryReport :=
  { index := i, name := e.name, hit_counter := e.hit_counter,
    inclusive_ticks := e.inclusive_ticks,
    exclusive_ticks := e.exclusive_ticks,
    bandwidth_bytes :=
      if e.processed_bytes_counter ≠ 0 then some e.processed_bytes_counter
      else none,
    averages :=
      if 1 < e.hit_counter then
        some { average_inclusive := e.inclusive_ticks / e.hit_counter,
               average_exclusive := e.exclusive_ticks / e.hit_counter,
               average_bytes :=
                 if e.processed_bytes_counter ≠ 0 then
                   some ((e.processed_bytes_counter : Rat) / (e.hit_counter : Rat))
                 else none,
               average_page_faults :=
                 if e.page_fault_counter ≠ 0 then
                   some ((e.page_fault_counter : Rat) / (e.hit_counter : Rat))
                 else none }
      else none }

/-- The indices the reporting loop prints: those below the table capacity
whose entry has nonzero inclusive_ticks (line 526 gate). -/
def printedIndices (p : dani_profiler) : List Nat :=
  (List.range DANI_PROFILER_ENTRIES_MAX).filter
    (fun i => (p.entries i).inclusive_ticks ≠ 0)

/-- The observable output shape of dani_PrintProfilingResults: either the
fallback line printing only the raw tick total (line 578, taken when the
frequency estimate is zero), or the full report. -/
inductive ReportOutput where
  | fallback (total_ticks : Nat)
  | full (total_ticks cpu_frequency : Nat) (lines : List EntryReport)
deriving DecidableEq

/-- dani_PrintProfilingResults (lines 505-580) as a function of the final
profiler state and the frequency estimate returned by
ReadCPUTimerFrequency. -/
def dani_PrintProfilingResults (p : dani_profiler) (cpu_frequency : Nat) :
    ReportOutput :=
  let elapsed_total_ticks := sub64 p.end_ticks p.start_ticks
  if cpu_frequency ≠ 0 then
    ReportOutput.full elapsed_total_ticks cpu_frequency
      ((printedIndices p).map (fun i => entryReport i (p.entries i)))
  else
    ReportOutput.fallback elapsed_total_ticks

/-- A nesting tree of zone invocations: one node per matched begin/end
pair, children in execution order.  Running a forest of such trees from a
state generates exactly the properly nested, balanced call sequences. -/
inductive ZTree where
  | node (name : String) (index : Nat) (byte_count : Nat)
      (children : List ZTree)
deriving Repr

/-- Execution state: the global profiler plus the position reached in the
timer / page-fault read streams (each begin and each end consumes one
position). -/
structure ExecSt where
  prof : dani_profiler
  clock : Nat

/-- Run a forest of zone invocations: for each tree, call
dani_BeginProfilingZone, run the children, call dani_EndProfilingZone,
then continue with the remaining trees.  ticks and pfs are the tick and
page-fault read streams. -/
def runF (ticks pfs : Nat → Nat) : List ZTree → ExecSt → ExecSt
  | [], s => s
  | ZTree.node nm i bc cs :: rest, s =>
    let bz := dani_BeginProfilingZone s.prof nm i bc (pfs s.clock) (ticks s.clock)
    let s1 : ExecSt := { prof := bz.1, clock := s.clock + 1 }
    let s2 := runF ticks pfs cs s1
    let p3 := dani_EndProfilingZone s2.prof bz.2 (ticks s2.clock) (pfs s2.clock)
    runF ticks pfs rest { prof := p3, clock := s2.clock + 1 }
termination_by ts _ => sizeOf ts
decreasing_by
  all_goals simp
  all_goals omega

/-- Number of nodes in a forest; a run consumes two read-stream positions
per node. -/
def szF : List ZTree → Nat
  | [] => 0
  | ZTree.node _ _ _ cs :: rest => 1 + szF cs + szF rest
termination_by ts => sizeOf ts
decreasing_by
  all_goals simp
  all_goals omega

/-- All zone indices occurring in a forest. -/
def idxF : List ZTree → List Nat
  | [] => []
  | ZTree.node _ i _ cs :: rest => i :: (idxF cs ++ idxF rest)
termination_by ts => sizeOf ts
decreasing_by
  all_goals simp
  all_goals omega

/-- Elapsed ticks (as an integer) of the head node of a forest started at
read position c: its ending read is position c + 1 + 2 * szF children. -/
def eF (ticks : Nat → Nat) : List ZTree → Nat → Int
  | [], _ => 0
  | ZTree.node _ _ _ cs :: rest, c =>
    ((ticks (c + 1 + 2 * szF cs) : Int) - (ticks c : Int))
      + eF ticks rest (c + 1 + 2 * szF cs + 1)
termination_by ts _ => sizeOf ts
decreasing_by
  all_goals simp
  all_goals omega

/-- Total elapsed ticks of every node carrying index j in a forest run at
read position c (the amounts dani_EndProfilingZone adds to entry j). -/
def ownF (ticks : Nat → Nat) : List ZTree → Nat → Nat → Int
  | [], _, _ => 0
  | ZTree.node _ i _ cs :: rest, c, j =>
    (if i = j then ((ticks (c + 1 + 2 * szF cs) : Int) - (ticks c : Int)) else 0)
      + ownF ticks cs (c + 1) j + ownF ticks rest (c + 1 + 2 * szF cs + 1) j
termination_by ts _ _ => sizeOf ts
decreasing_by
  all_goals simp
  all_goals omega

/-- Total elapsed ticks of every node whose tree parent carries index j
(the amounts dani_EndProfilingZone subtracts from entry j on behalf of
zones nested directly inside index-j zones). -/
def subF (ticks : Nat → Nat) : List ZTree → Nat → Nat → Int
  | [], _, _ => 0
  | ZTree.node _ i _ cs :: rest, c, j =>
    (if i = j then eF ticks cs (c + 1) else 0)
      + subF ticks cs (c + 1) j + subF ticks rest (c + 1 + 2 * szF cs + 1) j
termination_by ts _ _ => sizeOf ts
decreasing_by
  all_goals simp
  all_goals omega

/-- Total elapsed ticks of the j-outermost nodes of a forest: nodes with
index j having no proper ancestor of index j.  The snapshot/overwrite
scheme of dani_EndProfilingZone makes entry j accumulate exactly these. -/
def outerF (ticks : Nat → Nat) : List ZTree → Nat → Nat → Int
  | [], _, _ => 0
  | ZTree.node _ i _ cs :: rest, c, j =>
    (if i = j then ((ticks (c + 1 + 2 * szF cs) : Int) - (ticks c : Int))
     else outerF ticks cs (c + 1) j)
      + outerF ticks rest (c + 1 + 2 * szF cs + 1) j
termination_by ts _ _ => sizeOf ts
decreasing_by
  all_goals simp
  all_goals omega

/-- Number of nodes with index j in a forest (hit count delta). -/
def cntF : List ZTree → Nat → Nat
  | [], _ => 0
  | ZTree.node _ i _ cs :: rest, j =>
    (if i = j then 1 else 0) + cntF cs j + cntF rest j
termination_by ts _ => sizeOf ts
decreasing_by
  all_goals simp
  all_goals omega

/-- Total declared byte count of nodes with index j in a forest. -/
def bytesF : List ZTree → Nat → Nat
  | [], _ => 0
  | ZTree.node _ i bc cs :: rest, j =>
    (if i = j then bc else 0) + bytesF cs j + bytesF rest j
termination_by ts _ => sizeOf ts
decreasing_by
  all_goals simp
  all_goals omega

/-- All counter fields of every entry are reduced below the u64 modulus. -/
def entriesWF (p : dani_profiler) : Prop :=
  ∀ j, (p.entries j).exclusive_ticks < W ∧ (p.entries j).inclusive_ticks < W ∧
    (p.entries j).hit_counter < W ∧ (p.entries j).processed_bytes_counter < W

theorem add64_lt (a b : Nat) : add64 a b < W := by
  simp only [add64, W]; omega

theorem sub64_lt (a b : Nat) : sub64 a b < W := by
  simp only [sub64, W]; omega

theorem toNat_emod_lt (z : Int) : (z % (W : Int)).toNat < W := by
  simp only [W]; omega

theorem self_toNat (v : Nat) (h : v < W) : v = (((v : Int)) % (W : Int)).toNat := by
  simp only [W] at *; omega

theorem add64_toNat (z : Int) (y : Nat) :
    add64 ((z % (W : Int)).toNat) y = (((z + y) % (W : Int))).toNat := by
  simp only [add64, W]; omega

theorem sub64_toNat (z : Int) (y : Nat) :
    sub64 ((z % (W : Int)).toNat) y = (((z - y) % (W : Int))).toNat := by
  simp only [sub64, W]; omega

theorem add64_toNat2 (z w : Int) :
    add64 ((z % (W : Int)).toNat) ((w % (W : Int)).toNat)
      = (((z + w) % (W : Int))).toNat := by
  simp only [add64, W]; omega

theorem sub64_toNat2 (z w : Int) :
    sub64 ((z % (W : Int)).toNat) ((w % (W : Int)).toNat)
      = (((z - w) % (W : Int))).toNat := by
  simp only [sub64, W]; omega

theorem sub64_int (a b : Nat) :
    sub64 a b = ((((a : Int) - b) % (W : Int))).toNat := by
  simp only [sub64, W]; omega

theorem add64_int (a b : Nat) :
    add64 a b = ((((a : Int) + b) % (W : Int))).toNat := by
  simp only [add64, W]; omega

theorem toNat_emod_compose (z w : Int) :
    (((((z % (W : Int)).toNat : Int) + w) % (W : Int))).toNat
      = (((z + w) % (W : Int))).toNat := by
  simp only [W]; omega

theorem toNat_emod_eq_of_bounds (z : Int) (h0 : 0 ≤ z) (h1 : z < (W : Int)) :
    ((z % (W : Int)).toNat : Int) = z := by
  simp only [W] at *; omega

/-- Field-wise description of dani_BeginProfilingZone: session fields and
the current index. -/
theorem beginZone_session (p : dani_profiler) (nm : String)
    (i bc pf tk : Nat) :
    (dani_BeginProfilingZone p nm i bc pf tk).1.current_index = i ∧
    (dani_BeginProfilingZone p nm i bc pf tk).1.start_ticks = p.start_ticks ∧
    (dani_BeginProfilingZone p nm i bc pf tk).1.end_ticks = p.end_ticks ∧
    (dani_BeginProfilingZone p nm i bc pf tk).1.start_page_faults = p.start_page_faults ∧
    (dani_BeginProfilingZone p nm i bc pf tk).1.end_page_faults = p.end_page_faults := by
  simp [dani_BeginProfilingZone]

/-- The zone handle returned by dani_BeginProfilingZone. -/
theorem beginZone_zone (p : dani_profiler) (nm : String) (i bc pf tk : Nat) :
    (dani_BeginProfilingZone p nm i bc pf tk).2 =
      { name := nm, start_ticks := tk,
        inclusive_ticks := (p.entries i).inclusive_ticks,
        start_page_faults := pf, entry_index := i, parent_index := p.current_index } := by
  simp [dani_BeginProfilingZone]

/-- Entries after dani_BeginProfilingZone: only the byte counter of the
target entry changes. -/
theorem beginZone_entries (p : dani_profiler) (nm : String)
    (i bc pf tk j : Nat) :
    (dani_BeginProfilingZone p nm i bc pf tk).1.entries j =
      (if j = i then
        { p.entries i with
          processed_bytes_counter := add64 (p.entries i).processed_bytes_counter bc }
       else p.entries j) := by
  simp [dani_BeginProfilingZone]

/-- Session fields and current index after dani_EndProfilingZone. -/
theorem endZone_session (p : dani_profiler) (z : dani_profiler_zone)
    (tk pf : Nat) :
    (dani_EndProfilingZone p z tk pf).current_index = z.parent_index ∧
    (dani_EndProfilingZone p z tk pf).start_ticks = p.start_ticks ∧
    (dani_EndProfilingZone p z tk pf).end_ticks = p.end_ticks ∧
    (dani_EndProfilingZone p z tk pf).start_page_faults = p.start_page_faults ∧
    (dani_EndProfilingZone p z tk pf).end_page_faults = p.end_page_faults := by
  simp [dani_EndProfilingZone]

/-- Inclusive ticks after dani_EndProfilingZone: the zone entry receives
its snapshot plus the elapsed ticks; nothing else changes. -/
theorem endZone_incl (p : dani_profiler) (z : dani_profiler_zone)
    (tk pf j : Nat) :
    ((dani_EndProfilingZone p z tk pf).entries j).inclusive_ticks =
      (if j = z.entry_index then add64 z.inclusive_ticks (sub64 tk z.start_ticks)
       else (p.entries j).inclusive_ticks) := by
  by_cases h1 : j = z.entry_index <;>
    by_cases h2 : j = z.parent_index
  · subst h1; simp [dani_EndProfilingZone]
  · subst h1; simp [dani_EndProfilingZone]
  · subst h2
    have h3 : ¬z.parent_index = z.entry_index := h1
    simp [dani_EndProfilingZone, h3]
  · simp [dani_EndProfilingZone, h1, h2]

/-- Exclusive ticks after dani_EndProfilingZone: the parent entry loses
the elapsed ticks, the zone entry gains them (on top of the parent loss
when the two indices coincide). -/
theorem endZone_excl (p : dani_profiler) (z : dani_profiler_zone)
    (tk pf j : Nat) :
    ((dani_EndProfilingZone p z tk pf).entries j).exclusive_ticks =
      (if j = z.entry_index then
        add64 (if z.entry_index = z.parent_index then
                 sub64 (p.entries j).exclusive_ticks (sub64 tk z.start_ticks)
               else (p.entries j).exclusive_ticks)
          (sub64 tk z.start_ticks)
       else if j = z.parent_index then
         sub64 (p.entries j).exclusive_ticks (sub64 tk z.start_ticks)
       else (p.entries j).exclusive_ticks) := by
  by_cases h1 : j = z.entry_index <;>
    by_cases h2 : j = z.parent_index
  · subst h1; simp [dani_EndProfilingZone, ← h2]
  · subst h1; simp [dani_EndProfilingZone, h2]
  · subst h2
    have h3 : ¬z.parent_index = z.entry_index := h1
    simp [dani_EndProfilingZone, h3]
  · simp [dani_EndProfilingZone, h1, h2]

/-- Hit counter after dani_EndProfilingZone: the zone entry is
incremented. -/
theorem endZone_hit (p : dani_profiler) (z : dani_profiler_zone)
    (tk pf j : Nat) :
    ((dani_EndProfilingZone p z tk pf).entries j).hit_counter =
      (if j = z.entry_index then add64 (p.entries j).hit_counter 1
       else (p.entries j).hit_counter) := by
  by_cases h1 : j = z.entry_index <;>
    by_cases h2 : j = z.parent_index
  · subst h1; simp [dani_EndProfilingZone, ← h2]
  · subst h1; simp [dani_EndProfilingZone, h2]
  · subst h2
    have h3 : ¬z.parent_index = z.entry_index := h1
    simp [dani_EndProfilingZone, h3]
  · simp [dani_EndProfilingZone, h1, h2]

/-- Byte counters are untouched by dani_EndProfilingZone. -/
theorem endZone_bytes (p : dani_profiler) (z : dani_profiler_zone)
    (tk pf j : Nat) :
    ((dani_EndProfilingZone p z tk pf).entries j).processed_bytes_counter =
      (p.entries j).processed_bytes_counter := by
  by_cases h1 : j = z.entry_index <;>
    by_cases h2 : j = z.parent_index
  · subst h1; simp [dani_EndProfilingZone, ← h2]
  · subst h1; simp [dani_EndProfilingZone, h2]
  · subst h2
    have h3 : ¬z.parent_index = z.entry_index := h1
    simp [dani_EndProfilingZone, h3]
  · simp [dani_EndProfilingZone, h1, h2]

/-- Name, page-fault counter and min/max of entries other than the zone
entry are untouched by dani_EndProfilingZone. -/
theorem endZone_other (p : dani_profiler) (z : dani_profiler_zone)
    (tk pf j : Nat) (h : j ≠ z.entry_index) :
    ((dani_EndProfilingZone p z tk pf).entries j).name = (p.entries j).name ∧
    ((dani_EndProfilingZone p z tk pf).entries j).page_fault_counter =
      (p.entries j).page_fault_counter ∧
    ((dani_EndProfilingZone p z tk pf).entries j).inclusive_ticks_min =
      (p.entries j).inclusive_ticks_min ∧
    ((dani_EndProfilingZone p z tk pf).entries j).inclusive_ticks_max =
      (p.entries j).inclusive_ticks_max := by
  by_cases h2 : j = z.parent_index
  · subst h2
    have h3 : ¬z.parent_index = z.entry_index := h
    simp [dani_EndProfilingZone, h3]
  · simp [dani_EndProfilingZone, h, h2]

/-- Exact description of a forest run: read-stream position advance,
restored current index, untouched session fields, per-entry counter values
as wrapped integer formulas over the ghost totals, and untouched
name/page-fault/min/max fields for indices the forest does not use. -/
def RunSpec (ticks pfs : Nat → Nat) (ts : List ZTree) (s : ExecSt) : Prop :=
  (runF ticks pfs ts s).clock = s.clock + 2 * szF ts ∧
  (runF ticks pfs ts s).prof.current_index = s.prof.current_index ∧
  (runF ticks pfs ts s).prof.start_ticks = s.prof.start_ticks ∧
  (runF ticks pfs ts s).prof.end_ticks = s.prof.end_ticks ∧
  (runF ticks pfs ts s).prof.start_page_faults = s.prof.start_page_faults ∧
  (runF ticks pfs ts s).prof.end_page_faults = s.prof.end_page_faults ∧
  (∀ j,
    ((runF ticks pfs ts s).prof.entries j).exclusive_ticks =
      ((((s.prof.entries j).exclusive_ticks : Int) + ownF ticks ts s.clock j
        - subF ticks ts s.clock j
        - (if s.prof.current_index = j then eF ticks ts s.clock else 0))
        % (W : Int)).toNat ∧
    ((runF ticks pfs ts s).prof.entries j).inclusive_ticks =
      ((((s.prof.entries j).inclusive_ticks : Int) + outerF ticks ts s.clock j)
        % (W : Int)).toNat ∧
    ((runF ticks pfs ts s).prof.entries j).hit_counter =
      ((((s.prof.entries j).hit_counter : Int) + (cntF ts j : Int))
        % (W : Int)).toNat ∧
    ((runF ticks pfs ts s).prof.entries j).processed_bytes_counter =
      ((((s.prof.entries j).processed_bytes_counter : Int) + (bytesF ts j : Int))
        % (W : Int)).toNat) ∧
  (∀ j, j ∉ idxF ts →
    ((runF ticks pfs ts s).prof.entries j).name = (s.prof.entries j).name ∧
    ((runF ticks pfs ts s).prof.entries j).page_fault_counter =
      (s.prof.entries j).page_fault_counter ∧
    ((runF ticks pfs ts s).prof.entries j).inclusive_ticks_min =
      (s.prof.entries j).inclusive_ticks_min ∧
    ((runF ticks pfs ts s).prof.entries j).inclusive_ticks_max =
      (s.prof.entries j).inclusive_ticks_max)

theorem entriesWF_begin (p : dani_profiler) (nm : String) (i bc pf tk : Nat)
    (h : entriesWF p) : entriesWF (dani_BeginProfilingZone p nm i bc pf tk).1 := by
  intro j
  rw [beginZone_entries]
  by_cases hj : j = i
  · subst hj
    simp only [if_pos]
    exact ⟨(h j).1, (h j).2.1, (h j).2.2.1, add64_lt _ _⟩
  · simpa [hj] using h j

theorem entriesWF_end (p : dani_profiler) (z : dani_profiler_zone)
    (tk pf : Nat) (h : entriesWF p) : entriesWF (dani_EndProfilingZone p z tk pf) := by
  intro j
  refine ⟨?_, ?_, ?_, ?_⟩
  · rw [endZone_excl]
    by_cases h1 : j = z.entry_index
    · simp only [if_pos h1]
      exact add64_lt _ _
    · by_cases h2 : j = z.parent_index
      · simp only [if_neg h1, if_pos h2]
        exact sub64_lt _ _
      · simp only [if_neg h1, if_neg h2]
        exact (h j).1
  · rw [endZone_incl]
    by_cases h1 : j = z.entry_index
    · simp only [if_pos h1]
      exact add64_lt _ _
    · simp only [if_neg h1]
      exact (h j).2.1
  · rw [endZone_hit]
    by_cases h1 : j = z.entry_index
    · simp only [if_pos h1]
      exact add64_lt _ _
    · simp only [if_neg h1]
      exact (h j).2.2.1
  · rw [endZone_bytes]
    exact (h j).2.2.2

theorem RunSpec_entriesWF (ticks pfs : Nat → Nat) (ts : List ZTree)
    (s : ExecSt) (h : RunSpec ticks pfs ts s) :
    entriesWF (runF ticks pfs ts s).prof := by
  obtain ⟨-, -, -, -, -, -, hmain, -⟩ := h
  intro j
  obtain ⟨he, hi, hh, hb⟩ := hmain j
  exact ⟨he ▸ toNat_emod_lt _, hi ▸ toNat_emod_lt _,
    hh ▸ toNat_emod_lt _, hb ▸ toNat_emod_lt _⟩

theorem runF_spec_nil (ticks pfs : Nat → Nat) (s : ExecSt)
    (hWF : entriesWF s.prof) : RunSpec ticks pfs [] s := by
  have h0 : runF ticks pfs [] s = s := by simp [runF]
  unfold RunSpec
  rw [h0]
  refine ⟨by simp [szF], rfl, rfl, rfl, rfl, rfl, ?_, ?_⟩
  · intro j
    obtain ⟨he, hi, hh, hb⟩ := hWF j
    simp only [ownF, subF, outerF, eF, cntF, bytesF, ite_self, W] at *
    refine ⟨?_, ?_, ?_, ?_⟩ <;> omega
  · intro j _
    exact ⟨rfl, rfl, rfl, rfl⟩

/-- Exclusive ticks are untouched by dani_BeginProfilingZone. -/
theorem beginZone_excl (p : dani_profiler) (nm : String) (i bc pf tk j : Nat) :
    ((dani_BeginProfilingZone p nm i bc pf tk).1.entries j).exclusive_ticks =
      (p.entries j).exclusive_ticks := by
  rw [beginZone_entries]
  by_cases hj : j = i
  · subst hj; simp
  · simp [hj]

/-- Inclusive ticks are untouched by dani_BeginProfilingZone. -/
theorem beginZone_incl (p : dani_profiler) (nm : String) (i bc pf tk j : Nat) :
    ((dani_BeginProfilingZone p nm i bc pf tk).1.entries j).inclusive_ticks =
      (p.entries j).inclusive_ticks := by
  rw [beginZone_entries]
  by_cases hj : j = i
  · subst hj; simp
  · simp [hj]

/-- Hit counters are untouched by dani_BeginProfilingZone. -/
theorem beginZone_hit (p : dani_profiler) (nm : String) (i bc pf tk j : Nat) :
    ((dani_BeginProfilingZone p nm i bc pf tk).1.entries j).hit_counter =
      (p.entries j).hit_counter := by
  rw [beginZone_entries]
  by_cases hj : j = i
  · subst hj; simp
  · simp [hj]

/-- The byte counter gained by the target entry of dani_BeginProfilingZone. -/
theorem beginZone_bytes (p : dani_profiler) (nm : String) (i bc pf tk j : Nat) :
    ((dani_BeginProfilingZone p nm i bc pf tk).1.entries j).processed_bytes_counter =
      (if j = i then add64 (p.entries j).processed_bytes_counter bc
       else (p.entries j).processed_bytes_counter) := by
  rw [beginZone_entries]
  by_cases hj : j = i
  · subst hj; simp
  · simp [hj]

/-- Name, page-fault counter and min/max fields are untouched by
dani_BeginProfilingZone. -/
theorem beginZone_other (p : dani_profiler) (nm : String) (i bc pf tk j : Nat) :
    ((dani_BeginProfilingZone p nm i bc pf tk).1.entries j).name = (p.entries j).name ∧
    ((dani_BeginProfilingZone p nm i bc pf tk).1.entries j).page_fault_counter =
      (p.entries j).page_fault_counter ∧
    ((dani_BeginProfilingZone p nm i bc pf tk).1.entries j).inclusive_ticks_min =
      (p.entries j).inclusive_ticks_min ∧
    ((dani_BeginProfilingZone p nm i bc pf tk).1.entries j).inclusive_ticks_max =
      (p.entries j).inclusive_ticks_max := by
  rw [beginZone_entries]
  by_cases hj : j = i
  · subst hj; simp
  · simp [hj]


/-- Pure wrap-around arithmetic: composing the exclusive-ticks updates of
one node (parent subtraction plus entry addition, with optional aliasing)
with the child-forest and remaining-forest deltas. -/
theorem master_excl_arith (i j u e : Nat) (oc sc ec or sr er : Int) (t0 t1 : Nat) :
    ((((if j = i then
          add64
            (if i = u then
              sub64 ((((e : Int) + oc - sc - (if i = j then ec else 0)) % (W : Int)).toNat)
                (sub64 t1 t0)
            else ((((e : Int) + oc - sc - (if i = j then ec else 0)) % (W : Int)).toNat))
            (sub64 t1 t0)
        else
          if j = u then
            sub64 ((((e : Int) + oc - sc - (if i = j then ec else 0)) % (W : Int)).toNat)
              (sub64 t1 t0)
          else ((((e : Int) + oc - sc - (if i = j then ec else 0)) % (W : Int)).toNat) : Nat) : Int)
      + or - sr - (if u = j then er else 0)) % (W : Int)).toNat
    = (((e : Int) + ((if i = j then ((t1 : Int) - (t0 : Int)) else 0) + oc + or)
        - ((if i = j then ec else 0) + sc + sr)
        - (if u = j then ((t1 : Int) - (t0 : Int)) + er else 0)) % (W : Int)).toNat := by
  simp only [add64_int, sub64_int, W]
  split_ifs <;> omega

/-- Pure wrap-around arithmetic: composing the inclusive-ticks overwrite
of one node with the child-forest and remaining-forest deltas. -/
theorem master_incl_arith (i j n : Nat) (oc or : Int) (t0 t1 : Nat) :
    ((((if j = i then add64 n (sub64 t1 t0)
        else (((n : Int) + oc) % (W : Int)).toNat : Nat) : Int) + or) % (W : Int)).toNat
    = (((n : Int) + ((if i = j then ((t1 : Int) - (t0 : Int)) else oc) + or))
        % (W : Int)).toNat := by
  simp only [add64_int, sub64_int, W]
  split_ifs <;> omega

/-- Pure wrap-around arithmetic: composing the hit increment of one node
with the child-forest and remaining-forest counts. -/
theorem master_hit_arith (i j h cc cr : Nat) :
    ((((if j = i then add64 ((((h : Int) + (cc : Int)) % (W : Int)).toNat) 1
        else (((h : Int) + (cc : Int)) % (W : Int)).toNat : Nat) : Int) + (cr : Int))
        % (W : Int)).toNat
    = (((h : Int) + (((if i = j then 1 else 0) + cc + cr : Nat) : Int)) % (W : Int)).toNat := by
  simp only [add64_int, sub64_int, W]
  split_ifs <;> omega

/-- Pure wrap-around arithmetic: composing the byte-counter addition of
one node with the child-forest and remaining-forest totals. -/
theorem master_bytes_arith (i j b bc bcs br : Nat) :
    (((((((if j = i then add64 b bc else b : Nat) : Int) + (bcs : Int))
        % (W : Int)).toNat : Int) + (br : Int)) % (W : Int)).toNat
    = (((b : Int) + (((if i = j then bc else 0) + bcs + br : Nat) : Int)) % (W : Int)).toNat := by
  simp only [add64_int, sub64_int, W]
  split_ifs <;> omega

set_option maxHeartbeats 3200000 in
/-- The inductive step of the forest-run description: prepending one node
(with its subtree of children) to the forest composes the begin step, the
children runs, the end step and the remaining trees, matching the ghost
totals of the extended forest. -/
theorem runF_cons_spec (ticks pfs : Nat → Nat) (nm : String) (i bc : Nat)
    (cs rest : List ZTree) (s : ExecSt) (hWF : entriesWF s.prof)
    (ihcs : ∀ s2 : ExecSt, entriesWF s2.prof → RunSpec ticks pfs cs s2)
    (ihrest : ∀ s2 : ExecSt, entriesWF s2.prof → RunSpec ticks pfs rest s2) :
    RunSpec ticks pfs (ZTree.node nm i bc cs :: rest) s := by
  obtain ⟨hbcur, hbst, hbet, hbsp, hbep⟩ :=
    beginZone_session s.prof nm i bc (pfs s.clock) (ticks s.clock)
  have hz := beginZone_zone s.prof nm i bc (pfs s.clock) (ticks s.clock)
  have hzE : (dani_BeginProfilingZone s.prof nm i bc (pfs s.clock) (ticks s.clock)).2.entry_index = i := by
    rw [hz]
  have hzP : (dani_BeginProfilingZone s.prof nm i bc (pfs s.clock) (ticks s.clock)).2.parent_index = s.prof.current_index := by
    rw [hz]
  have hzS : (dani_BeginProfilingZone s.prof nm i bc (pfs s.clock) (ticks s.clock)).2.start_ticks = ticks s.clock := by
    rw [hz]
  have hzI : (dani_BeginProfilingZone s.prof nm i bc (pfs s.clock) (ticks s.clock)).2.inclusive_ticks = (s.prof.entries i).inclusive_ticks := by
    rw [hz]
  have hWF1 : entriesWF (dani_BeginProfilingZone s.prof nm i bc (pfs s.clock) (ticks s.clock)).1 :=
    entriesWF_begin _ _ _ _ _ _ hWF
  have hcs := ihcs ⟨(dani_BeginProfilingZone s.prof nm i bc (pfs s.clock) (ticks s.clock)).1, s.clock + 1⟩ hWF1
  have hWFmid := RunSpec_entriesWF _ _ _ _ hcs
  obtain ⟨hck1, hcu1, hst1, het1, hsp1, hep1, hmain1, hframe1⟩ := hcs
  set mid := runF ticks pfs cs
    ⟨(dani_BeginProfilingZone s.prof nm i bc (pfs s.clock) (ticks s.clock)).1, s.clock + 1⟩
    with hmiddef
  dsimp only at hck1 hcu1 hst1 het1 hsp1 hep1 hmain1 hframe1 hWFmid
  rw [hbcur] at hcu1
  rw [hbst] at hst1
  rw [hbet] at het1
  rw [hbsp] at hsp1
  rw [hbep] at hep1
  obtain ⟨hes1, hes2, hes3, hes4, hes5⟩ :=
    endZone_session mid.prof
      (dani_BeginProfilingZone s.prof nm i bc (pfs s.clock) (ticks s.clock)).2
      (ticks mid.clock) (pfs mid.clock)
  rw [hzP] at hes1
  have hWF3 : entriesWF (dani_EndProfilingZone mid.prof
      (dani_BeginProfilingZone s.prof nm i bc (pfs s.clock) (ticks s.clock)).2
      (ticks mid.clock) (pfs mid.clock)) :=
    entriesWF_end _ _ _ _ hWFmid
  have hrest := ihrest ⟨dani_EndProfilingZone mid.prof
      (dani_BeginProfilingZone s.prof nm i bc (pfs s.clock) (ticks s.clock)).2
      (ticks mid.clock) (pfs mid.clock), mid.clock + 1⟩ hWF3
  obtain ⟨hck2, hcu2, hst2, het2, hsp2, hep2, hmain2, hframe2⟩ := hrest
  set fin := runF ticks pfs rest
    ⟨dani_EndProfilingZone mid.prof
      (dani_BeginProfilingZone s.prof nm i bc (pfs s.clock) (ticks s.clock)).2
      (ticks mid.clock) (pfs mid.clock), mid.clock + 1⟩
    with hfindef
  dsimp only at hck2 hcu2 hst2 het2 hsp2 hep2 hmain2 hframe2
  rw [hes1] at hcu2
  rw [hes2] at hst2
  rw [hes3] at het2
  rw [hes4] at hsp2
  rw [hes5] at hep2
  rw [hst1] at hst2
  rw [het1] at het2
  rw [hsp1] at hsp2
  rw [hep1] at hep2
  have hrun : runF ticks pfs (ZTree.node nm i bc cs :: rest) s = fin := by
    rw [runF]
  clear_value mid fin
  unfold RunSpec
  rw [hrun]
  refine ⟨?_, ?_, ?_, ?_, ?_, ?_, ?_, ?_⟩
  · rw [hck2, hck1]
    simp only [szF]
    omega
  · rw [hcu2]
  · rw [hst2]
  · rw [het2]
  · rw [hsp2]
  · rw [hep2]
  · intro j
    have hm1 := hmain1 j
    have hm2 := hmain2 j
    rw [hbcur, beginZone_excl, beginZone_incl, beginZone_hit, beginZone_bytes] at hm1
    rw [hes1, endZone_excl, endZone_incl, endZone_hit, endZone_bytes,
      hzE, hzP, hzS, hzI] at hm2
    obtain ⟨hm1e, hm1i, hm1h, hm1b⟩ := hm1
    obtain ⟨hm2e, hm2i, hm2h, hm2b⟩ := hm2
    rw [hck1] at hm2e hm2i
    have hswap : (if j = i then
          add64 (s.prof.entries i).inclusive_ticks
            (sub64 (ticks (s.clock + 1 + 2 * szF cs)) (ticks s.clock))
        else (mid.prof.entries j).inclusive_ticks)
        = (if j = i then
          add64 (s.prof.entries j).inclusive_ticks
            (sub64 (ticks (s.clock + 1 + 2 * szF cs)) (ticks s.clock))
        else (mid.prof.entries j).inclusive_ticks) := by
      by_cases hji : j = i
      · rw [hji]
      · rw [if_neg hji, if_neg hji]
    rw [hswap] at hm2i
    refine ⟨?_, ?_, ?_, ?_⟩
    · rw [hm2e, hm1e]
      simp only [ownF, subF, eF]
      exact master_excl_arith i j s.prof.current_index
        (s.prof.entries j).exclusive_ticks
        (ownF ticks cs (s.clock + 1) j) (subF ticks cs (s.clock + 1) j)
        (eF ticks cs (s.clock + 1))
        (ownF ticks rest (s.clock + 1 + 2 * szF cs + 1) j)
        (subF ticks rest (s.clock + 1 + 2 * szF cs + 1) j)
        (eF ticks rest (s.clock + 1 + 2 * szF cs + 1))
        (ticks s.clock) (ticks (s.clock + 1 + 2 * szF cs))
    · rw [hm2i, hm1i]
      simp only [outerF]
      exact master_incl_arith i j (s.prof.entries j).inclusive_ticks
        (outerF ticks cs (s.clock + 1) j)
        (outerF ticks rest (s.clock + 1 + 2 * szF cs + 1) j)
        (ticks s.clock) (ticks (s.clock + 1 + 2 * szF cs))
    · rw [hm2h, hm1h]
      simp only [cntF]
      exact master_hit_arith i j (s.prof.entries j).hit_counter
        (cntF cs j) (cntF rest j)
    · rw [hm2b, hm1b]
      simp only [bytesF]
      exact master_bytes_arith i j
        (s.prof.entries j).processed_bytes_counter bc (bytesF cs j) (bytesF rest j)
  · intro j hj
    have hj1 : j ≠ i := by
      intro h
      exact hj (by simp [idxF, h])
    have hj2 : j ∉ idxF cs := by
      intro h
      exact hj (by simp [idxF, h])
    have hj3 : j ∉ idxF rest := by
      intro h
      exact hj (by simp [idxF, h])
    have hf1 := hframe1 j hj2
    have hf2 := hframe2 j hj3
    obtain ⟨hb1, hb2, hb3, hb4⟩ := beginZone_other s.prof nm i bc (pfs s.clock) (ticks s.clock) j
    have hjE : j ≠ (dani_BeginProfilingZone s.prof nm i bc (pfs s.clock) (ticks s.clock)).2.entry_index := by
      rw [hzE]; exact hj1
    obtain ⟨he1, he2, he3, he4⟩ :=
      endZone_other mid.prof
        (dani_BeginProfilingZone s.prof nm i bc (pfs s.clock) (ticks s.clock)).2
        (ticks mid.clock) (pfs mid.clock) j hjE
    obtain ⟨hc1, hc2, hc3, hc4⟩ := hf1
    obtain ⟨hd1, hd2, hd3, hd4⟩ := hf2
    rw [hb1] at hc1
    rw [hb2] at hc2
    rw [hb3] at hc3
    rw [hb4] at hc4
    rw [hc1] at he1
    rw [hc2] at he2
    rw [hc3] at he3
    rw [hc4] at he4
    rw [he1] at hd1
    rw [he2] at hd2
    rw [he3] at hd3
    rw [he4] at hd4
    exact ⟨hd1, hd2, hd3, hd4⟩

/-- Full forest-run description, by strong induction on the node count. -/
theorem runF_spec (ticks pfs : Nat → Nat) :
    ∀ (n : Nat) (ts : List ZTree), szF ts ≤ n → ∀ s : ExecSt, entriesWF s.prof →
      RunSpec ticks pfs ts s := by
  intro n
  induction n with
  | zero =>
    intro ts hsz s hWF
    cases ts with
    | nil => exact runF_spec_nil ticks pfs s hWF
    | cons t rest =>
      cases t with
      | node nm i bc cs =>
        rw [szF] at hsz
        omega
  | succ n ih =>
    intro ts hsz s hWF
    cases ts with
    | nil => exact runF_spec_nil ticks pfs s hWF
    | cons t rest =>
      cases t with
      | node nm i bc cs =>
        rw [szF] at hsz
        exact runF_cons_spec ticks pfs nm i bc cs rest s hWF
          (fun s2 h2 => ih cs (by omega) s2 h2)
          (fun s2 h2 => ih rest (by omega) s2 h2)

/-- The forest-run description holds for every forest and start state. -/
theorem runF_run (ticks pfs : Nat → Nat) (ts : List ZTree) (s : ExecSt)
    (hWF : entriesWF s.prof) : RunSpec ticks pfs ts s :=
  runF_spec ticks pfs (szF ts) ts le_rfl s hWF

/-- Structural induction over forests matching the nested recursion of the
run function and the ghost totals. -/
theorem forest_ind (P : List ZTree → Prop) (h0 : P [])
    (h1 : ∀ (nm : String) (i bc : Nat) (cs rest : List ZTree),
      P cs → P rest → P (ZTree.node nm i bc cs :: rest)) :
    ∀ ts, P ts := by
  have key : ∀ n ts, szF ts ≤ n → P ts := by
    intro n
    induction n with
    | zero =>
      intro ts hsz
      cases ts with
      | nil => exact h0
      | cons t rest =>
        cases t with
        | node nm i bc cs =>
          rw [szF] at hsz
          omega
    | succ n ih =>
      intro ts hsz
      cases ts with
      | nil => exact h0
      | cons t rest =>
        cases t with
        | node nm i bc cs =>
          rw [szF] at hsz
          exact h1 nm i bc cs rest (ih cs (by omega)) (ih rest (by omega))
  exact fun ts => key (szF ts) ts le_rfl

/-- With monotone tick reads, every forest elapsed total is non-negative. -/
theorem eF_nonneg (ticks : Nat → Nat) (hmono : Monotone ticks) :
    ∀ (ts : List ZTree) (c : Nat), 0 ≤ eF ticks ts c := by
  refine forest_ind _ ?_ ?_
  · intro c
    simp [eF]
  · intro nm i bc cs rest _ ihrest c
    simp only [eF]
    have m1 : ticks c ≤ ticks (c + 1 + 2 * szF cs) := hmono (by omega)
    have h2 := ihrest (c + 1 + 2 * szF cs + 1)
    omega

/-- With monotone tick reads, a forest's elapsed total is bounded by the
tick span of the read positions it consumes. -/
theorem eF_le (ticks : Nat → Nat) (hmono : Monotone ticks) :
    ∀ (ts : List ZTree) (c : Nat),
      eF ticks ts c ≤ (ticks (c + 2 * szF ts) : Int) - (ticks c : Int) := by
  refine forest_ind _ ?_ ?_
  · intro c
    simp [eF, szF]
  · intro nm i bc cs rest _ ihrest c
    simp only [eF, szF]
    have h2 := ihrest (c + 1 + 2 * szF cs + 1)
    have harg : c + 1 + 2 * szF cs + 1 + 2 * szF rest = c + 2 * (1 + szF cs + szF rest) := by
      omega
    rw [harg] at h2
    have m1 : ticks (c + 1 + 2 * szF cs) ≤ ticks (c + 1 + 2 * szF cs + 1) := hmono (by omega)
    omega

/-- The core ghost inequalities under monotone tick reads: for every index
j and start position, the net exclusive delta (own minus subtracted) is
non-negative, bounded by the outermost total, and bounded by the forest
elapsed; the outermost total is non-negative and bounded by the forest
elapsed. -/
theorem ghost_bounds (ticks : Nat → Nat) (hmono : Monotone ticks) :
    ∀ (ts : List ZTree) (c j : Nat),
      0 ≤ ownF ticks ts c j - subF ticks ts c j ∧
      ownF ticks ts c j - subF ticks ts c j ≤ outerF ticks ts c j ∧
      ownF ticks ts c j - subF ticks ts c j ≤ eF ticks ts c ∧
      0 ≤ outerF ticks ts c j ∧
      outerF ticks ts c j ≤ eF ticks ts c := by
  refine forest_ind _ ?_ ?_
  · intro c j
    simp [ownF, subF, outerF, eF]
  · intro nm i bc cs rest ihcs ihrest c j
    obtain ⟨ha1, ha2, ha3, ha4, ha5⟩ := ihcs (c + 1) j
    obtain ⟨hb1, hb2, hb3, hb4, hb5⟩ := ihrest (c + 1 + 2 * szF cs + 1) j
    have hce := eF_le ticks hmono cs (c + 1)
    have hcn := eF_nonneg ticks hmono cs (c + 1)
    have m1 : ticks c ≤ ticks (c + 1) := hmono (by omega)
    have m2 : ticks (c + 1) ≤ ticks (c + 1 + 2 * szF cs) := hmono (by omega)
    simp only [ownF, subF, outerF, eF]
    split_ifs <;>
      refine ⟨?_, ?_, ?_, ?_, ?_⟩ <;> omega

/-- A forest mentioning an index nowhere contributes nothing to that
index: all its ghost totals vanish. -/
theorem ghost_zero (ticks : Nat → Nat) :
    ∀ (ts : List ZTree) (c j : Nat), j ∉ idxF ts →
      ownF ticks ts c j = 0 ∧ subF ticks ts c j = 0 ∧
      outerF ticks ts c j = 0 ∧ cntF ts j = 0 ∧ bytesF ts j = 0 := by
  refine forest_ind _ ?_ ?_
  · intro c j _
    simp [ownF, subF, outerF, cntF, bytesF]
  · intro nm i bc cs rest ihcs ihrest c j hj
    have hj1 : ¬i = j := by
      intro h
      exact hj (by simp [idxF, h])
    have hj2 : j ∉ idxF cs := by
      intro h
      exact hj (by simp [idxF, h])
    have hj3 : j ∉ idxF rest := by
      intro h
      exact hj (by simp [idxF, h])
    obtain ⟨ha1, ha2, ha3, ha4, ha5⟩ := ihcs (c + 1) j hj2
    obtain ⟨hb1, hb2, hb3, hb4, hb5⟩ := ihrest (c + 1 + 2 * szF cs + 1) j hj3
    simp only [ownF, subF, outerF, cntF, bytesF, if_neg hj1]
    omega

theorem initProfiler_WF : entriesWF initProfiler := by
  intro j
  refine ⟨?_, ?_, ?_, ?_⟩ <;> simp [initProfiler, initEntry, W]

theorem sub64_self (a : Nat) : sub64 a a = 0 := by
  simp only [sub64, W]
  omega

/-- With a never-advancing reference clock and a positive wait threshold,
the busy wait of ReadCPUTimerFrequency never exits, whatever fuel it is
given. -/
theorem freqLoop_const (wt : Nat) (hwt : 0 < wt) (reads : Nat → Nat)
    (hconst : ∀ k, reads k = reads 0) :
    ∀ (fuel k : Nat), freqLoop (reads 0) wt reads fuel k 0 = none := by
  intro fuel
  induction fuel with
  | zero =>
    intro k
    rw [freqLoop]
    simp [hwt]
  | succ fuel ih =>
    intro k
    rw [freqLoop]
    simp only [hwt, if_pos]
    rw [hconst k, sub64_self]
    exact ih (k + 1)

/-- C6: dani_GetNextProfilerZoneIndex hands out the values of a counter
incremented from 0, so the first index is 1 and index 0 is never handed
out; every successfully returned index is nonzero and strictly below the
table capacity, and when the incremented counter reaches the capacity (or
wraps to zero) the Assert traps instead of returning the index. -/
theorem C6_zone_index_allocator :
    dani_GetNextProfilerZoneIndex 0 = some (1, 1) ∧
    (∀ c st r, dani_GetNextProfilerZoneIndex c = some (st, r) →
      r = (c + 1) % 2 ^ 32 ∧ st = r ∧ r ≠ 0 ∧ r < DANI_PROFILER_ENTRIES_MAX) ∧
    (∀ c, DANI_PROFILER_ENTRIES_MAX ≤ (c + 1) % 2 ^ 32 ∨ (c + 1) % 2 ^ 32 = 0 →
      dani_GetNextProfilerZoneIndex c = none) := by
  refine ⟨by decide, ?_, ?_⟩
  · intro c st r h
    by_cases hcond : ((c + 1) % 2 ^ 32 ≠ 0 ∧ (c + 1) % 2 ^ 32 < DANI_PROFILER_ENTRIES_MAX)
    · simp only [dani_GetNextProfilerZoneIndex, if_pos hcond, Option.some.injEq,
        Prod.mk.injEq] at h
      obtain ⟨h1, h2⟩ := h
      exact ⟨h2.symm, by omega, h2 ▸ hcond.1, h2 ▸ hcond.2⟩
    · simp only [dani_GetNextProfilerZoneIndex, if_neg hcond] at h
      exact absurd h (by simp)
  · intro c hc
    simp only [dani_GetNextProfilerZoneIndex, ite_eq_right_iff]
    intro hcond
    exfalso
    unfold DANI_PROFILER_ENTRIES_MAX at hc hcond
    omega

/-- Witness for C6 at the initial counter value: the first call returns
index 1, which is nonzero and below the capacity. -/
theorem C6_zone_index_allocator_witness :
    1 = (0 + 1) % 2 ^ 32 ∧ 1 = 1 ∧ 1 ≠ 0 ∧ 1 < DANI_PROFILER_ENTRIES_MAX :=
  C6_zone_index_allocator.2.1 0 1 1 (by decide)

/-- C8: the per-hit averages block of the report exists exactly when the
entry's hit counter exceeds one, and inside it the tick averages are the
u64 divisions by that (necessarily positive) hit counter; no division by
the hit counter happens outside that block. -/
theorem C8_averages_gated (i : Nat) (e : dani_profiler_entry) :
    ((entryReport i e).averages.isSome ↔ 1 < e.hit_counter) ∧
    (∀ a, (entryReport i e).averages = some a →
      a.average_inclusive = e.inclusive_ticks / e.hit_counter ∧
      a.average_exclusive = e.exclusive_ticks / e.hit_counter) := by
  unfold entryReport
  by_cases h : 1 < e.hit_counter
  · constructor
    · simp [h]
    · intro a ha
      simp only [if_pos h, Option.some.injEq] at ha
      rw [← ha]
      exact ⟨rfl, rfl⟩
  · constructor
    · simp [h]
    · intro a ha
      simp only [if_neg h] at ha
      exact absurd ha (by simp)

/-- Witness for C8: an entry hit twice reports the averages block with the
integer-divided tick averages. -/
theorem C8_averages_gated_witness :
    (5 : Nat) = 10 / 2 ∧ (3 : Nat) = 6 / 2 :=
  (C8_averages_gated 1
    { inclusive_ticks := 10, exclusive_ticks := 6, hit_counter := 2,
      processed_bytes_counter := 0, page_fault_counter := 0,
      inclusive_ticks_min := 0, inclusive_ticks_max := 0, name := "x" }).2
    { average_inclusive := 5, average_exclusive := 3,
      average_bytes := none, average_page_faults := none }
    (by decide)

/-- C10: dani_BeginProfilingZone only adds the byte count to the target
entry's byte counter and repoints the current index at the target; every
other entry, every other field of the target entry, and the session
start/end fields are unchanged. -/
theorem C10_beginZone_frame (p : dani_profiler) (nm : String)
    (i bc pf tk : Nat) :
    (∀ j, j ≠ i → (dani_BeginProfilingZone p nm i bc pf tk).1.entries j = p.entries j) ∧
    (dani_BeginProfilingZone p nm i bc pf tk).1.entries i =
      { p.entries i with
        processed_bytes_counter := add64 (p.entries i).processed_bytes_counter bc } ∧
    (dani_BeginProfilingZone p nm i bc pf tk).1.current_index = i ∧
    (dani_BeginProfilingZone p nm i bc pf tk).1.start_ticks = p.start_ticks ∧
    (dani_BeginProfilingZone p nm i bc pf tk).1.end_ticks = p.end_ticks ∧
    (dani_BeginProfilingZone p nm i bc pf tk).1.start_page_faults = p.start_page_faults ∧
    (dani_BeginProfilingZone p nm i bc pf tk).1.end_page_faults = p.end_page_faults := by
  obtain ⟨h1, h2, h3, h4, h5⟩ := beginZone_session p nm i bc pf tk
  refine ⟨?_, ?_, h1, h2, h3, h4, h5⟩
  · intro j hj
    rw [beginZone_entries, if_neg hj]
  · rw [beginZone_entries, if_pos rfl]

/-- Witness for C10: beginning a zone at index 1 leaves entry 0 exactly as
it was. -/
theorem C10_beginZone_frame_witness :
    (0 : Nat) ≠ 1 ∧
    (dani_BeginProfilingZone initProfiler "z" 1 7 2 3).1.entries 0 =
      initProfiler.entries 0 :=
  ⟨by decide, (C10_beginZone_frame initProfiler "z" 1 7 2 3).1 0 (by decide)⟩

/-- C5 (amended): ReadCPUTimerFrequency returns
os_frequency * cpu_elapsed / os_elapsed (u64 arithmetic) whenever the
busy wait exits with a nonzero reference delta - a quotient that can
itself floor to 0 even with a positive wait threshold, as the concrete
last conjunct shows; when the computed wait threshold
os_frequency * wait_ms / 1000 is zero (the loop body never runs and the
reference delta stays 0, e.g. a zero reference frequency) the call
returns 0; if the reference clock never advances while the threshold is
positive, the call never returns at all (every fuel bound yields none)
instead of returning 0.  When the frequency estimate is 0, the Reporter
prints only the raw tick total. -/
theorem C5_frequency_estimation :
    (∀ (f w : Nat) (reads : Nat → Nat) (cs ce fuel e : Nat),
      freqLoop (reads 0) (mul64 f w / 1000) reads fuel 1 0 = some e → e ≠ 0 →
      ReadCPUTimerFrequency f w reads cs ce fuel =
        some (mul64 f (sub64 ce cs) / e)) ∧
    (∀ (f w : Nat) (reads : Nat → Nat) (cs ce fuel : Nat),
      mul64 f w / 1000 = 0 →
      ReadCPUTimerFrequency f w reads cs ce fuel = some 0) ∧
    (∀ (f w : Nat) (reads : Nat → Nat) (cs ce : Nat),
      (∀ k, reads k = reads 0) → 0 < mul64 f w / 1000 →
      ReadCPUTimerFrequencyDiverges f w reads cs ce) ∧
    (∀ p : dani_profiler,
      dani_PrintProfilingResults p 0 =
        ReportOutput.fallback (sub64 p.end_ticks p.start_ticks)) ∧
    (mul64 1000 1000 / 1000 ≠ 0 ∧
      ReadCPUTimerFrequency 1000 1000 (fun k => if k = 0 then 0 else 2000)
        7 7 5 = some 0) := by
  refine ⟨?_, ?_, ?_, ?_, by decide, by decide⟩
  · intro f w reads cs ce fuel e hloop he
    simp only [ReadCPUTimerFrequency, hloop, he]
    simp only [if_pos he, Option.some.injEq]
  · intro f w reads cs ce fuel hw
    simp only [ReadCPUTimerFrequency, hw]
    rw [freqLoop.eq_def]
    simp
  · intro f w reads cs ce hconst hpos fuel
    simp only [ReadCPUTimerFrequency]
    rw [freqLoop_const (mul64 f w / 1000) hpos reads hconst fuel 1]
  · intro p
    simp [dani_PrintProfilingResults]

/-- Witness for C5: with a zero reference frequency the wait threshold is
zero and the call returns 0. -/
theorem C5_frequency_estimation_witness :
    mul64 0 100 / 1000 = 0 ∧
    ReadCPUTimerFrequency 0 100 (fun _ => 5) 3 500 7 = some 0 :=
  ⟨by decide, C5_frequency_estimation.2.1 0 100 (fun _ => 5) 3 500 7 (by decide)⟩

/-- Counterexample for C5 as stated: with a reference clock that never
advances (constant reads) and the default 100 ms wait at a positive
reference frequency, the call does not return 0 - it never returns. -/
theorem C5_counterexample :
    ReadCPUTimerFrequencyDiverges 1000 100 (fun _ => 42) 3 500 ∧
    ReadCPUTimerFrequency 1000 100 (fun _ => 42) 3 500 50 ≠ some 0 := by
  have hd : ReadCPUTimerFrequencyDiverges 1000 100 (fun _ => 42) 3 500 := by
    intro fuel
    simp only [ReadCPUTimerFrequency]
    rw [freqLoop_const (mul64 1000 100 / 1000) (by decide) (fun _ => 42)
      (fun _ => rfl) fuel 1]
  refine ⟨hd, ?_⟩
  rw [hd 50]
  simp

/-- C7: dani_BeginProfilingZone adds the byte count to the entry's byte
counter at zone entry, dani_EndProfilingZone never touches any byte
counter, and the counter accumulates across invocations: a zone entered
with byte counts 100 and 300 ends with 400 processed bytes. -/
theorem C7_processed_bytes (p : dani_profiler) (nm : String)
    (i bc pf tk : Nat) (z : dani_profiler_zone) (tk2 pf2 : Nat) :
    ((dani_BeginProfilingZone p nm i bc pf tk).1.entries i).processed_bytes_counter =
      add64 (p.entries i).processed_bytes_counter bc ∧
    (∀ j, ((dani_EndProfilingZone p z tk2 pf2).entries j).processed_bytes_counter =
      (p.entries j).processed_bytes_counter) ∧
    (∀ (ticks pfs : Nat → Nat) (k : Nat),
      ((runF ticks pfs [ZTree.node nm k 100 [], ZTree.node nm k 300 []]
          ⟨initProfiler, 0⟩).prof.entries k).processed_bytes_counter = 400) := by
  refine ⟨?_, ?_, ?_⟩
  · rw [beginZone_bytes, if_pos rfl]
  · intro j
    exact endZone_bytes p z tk2 pf2 j
  · intro ticks pfs k
    obtain ⟨-, -, -, -, -, -, hmain, -⟩ :=
      runF_run ticks pfs [ZTree.node nm k 100 [], ZTree.node nm k 300 []]
        ⟨initProfiler, 0⟩ initProfiler_WF
    have h := (hmain k).2.2.2
    dsimp only at h
    rw [h]
    simp [bytesF, initProfiler, initEntry, W]

/-- C1: for a parent zone wrapping a child zone, each entered and exited
once from a freshly reset profiler with monotone tick reads (reads 0-3:
begin parent, begin child, end child, end parent), the parent entry holds
inclusive = its elapsed, exclusive = its elapsed minus the child elapsed
(a non-wrapping subtraction, since the child elapsed is at most the
parent elapsed), and the child entry holds inclusive = exclusive = the
child elapsed. -/
theorem C1_parent_child_split (ticks pfs : Nat → Nat) (hmono : Monotone ticks)
    (hbound : ∀ n, ticks n < W) (nmP nmC : String) (ip ic bp bcc : Nat)
    (hip : ip ≠ 0) (hic : ic ≠ 0) (hne : ip ≠ ic)
    (hipb : ip < DANI_PROFILER_ENTRIES_MAX) (hicb : ic < DANI_PROFILER_ENTRIES_MAX) :
    ((runF ticks pfs [ZTree.node nmP ip bp [ZTree.node nmC ic bcc []]]
        ⟨initProfiler, 0⟩).prof.entries ip).inclusive_ticks = ticks 3 - ticks 0 ∧
    ((runF ticks pfs [ZTree.node nmP ip bp [ZTree.node nmC ic bcc []]]
        ⟨initProfiler, 0⟩).prof.entries ip).exclusive_ticks =
      (ticks 3 - ticks 0) - (ticks 2 - ticks 1) ∧
    ticks 2 - ticks 1 ≤ ticks 3 - ticks 0 ∧
    ((runF ticks pfs [ZTree.node nmP ip bp [ZTree.node nmC ic bcc []]]
        ⟨initProfiler, 0⟩).prof.entries ic).inclusive_ticks = ticks 2 - ticks 1 ∧
    ((runF ticks pfs [ZTree.node nmP ip bp [ZTree.node nmC ic bcc []]]
        ⟨initProfiler, 0⟩).prof.entries ic).exclusive_ticks = ticks 2 - ticks 1 := by
  have hip0 : ¬((0 : Nat) = ip) := fun h => hip h.symm
  have hic0 : ¬((0 : Nat) = ic) := fun h => hic h.symm
  have hcip : ¬(ic = ip) := fun h => hne h.symm
  have m01 : ticks 0 ≤ ticks 1 := hmono (by omega)
  have m12 : ticks 1 ≤ ticks 2 := hmono (by omega)
  have m23 : ticks 2 ≤ ticks 3 := hmono (by omega)
  have hb3 := hbound 3
  have hb2 := hbound 2
  have hb1 := hbound 1
  have hb0 := hbound 0
  obtain ⟨-, -, -, -, -, -, hmain, -⟩ :=
    runF_run ticks pfs [ZTree.node nmP ip bp [ZTree.node nmC ic bcc []]]
      ⟨initProfiler, 0⟩ initProfiler_WF
  obtain ⟨hPe, hPi, hPh, hPb⟩ := hmain ip
  obtain ⟨hCe, hCi, hCh, hCb⟩ := hmain ic
  simp only [W] at hb0 hb1 hb2 hb3
  refine ⟨?_, ?_, by omega, ?_, ?_⟩
  · rw [hPi]
    dsimp only
    simp [initProfiler, initEntry, ownF, subF, outerF, eF, szF, hne, hcip, hip0, hic0]
    simp only [W]
    omega
  · rw [hPe]
    dsimp only
    simp [initProfiler, initEntry, ownF, subF, outerF, eF, szF, hne, hcip, hip0, hic0]
    simp only [W]
    omega
  · rw [hCi]
    dsimp only
    simp [initProfiler, initEntry, ownF, subF, outerF, eF, szF, hne, hcip, hip0, hic0]
    simp only [W]
    omega
  · rw [hCe]
    dsimp only
    simp [initProfiler, initEntry, ownF, subF, outerF, eF, szF, hne, hcip, hip0, hic0]
    simp only [W]
    omega

/-- Witness for C1 at constant tick reads and indices 1 and 2. -/
theorem C1_parent_child_split_witness :
    (1 : Nat) ≠ 0 ∧ (2 : Nat) ≠ 0 ∧ (1 : Nat) ≠ 2 ∧
    (((runF (fun _ => 0) (fun _ => 0) [ZTree.node "P" 1 0 [ZTree.node "C" 2 0 []]]
        ⟨initProfiler, 0⟩).prof.entries 1).inclusive_ticks = 0 ∧
     ((runF (fun _ => 0) (fun _ => 0) [ZTree.node "P" 1 0 [ZTree.node "C" 2 0 []]]
        ⟨initProfiler, 0⟩).prof.entries 1).exclusive_ticks = 0 ∧
     (0 : Nat) ≤ 0 ∧
     ((runF (fun _ => 0) (fun _ => 0) [ZTree.node "P" 1 0 [ZTree.node "C" 2 0 []]]
        ⟨initProfiler, 0⟩).prof.entries 2).inclusive_ticks = 0 ∧
     ((runF (fun _ => 0) (fun _ => 0) [ZTree.node "P" 1 0 [ZTree.node "C" 2 0 []]]
        ⟨initProfiler, 0⟩).prof.entries 2).exclusive_ticks = 0) :=
  ⟨by decide, by decide, by decide,
   C1_parent_child_split (fun _ => 0) (fun _ => 0) monotone_const
     (fun _ => by show (0 : Nat) < W; decide)
     "P" "C" 1 2 0 0 (by decide) (by decide) (by decide) (by decide) (by decide)⟩

theorem beginProfiling_WF (tk pf : Nat) : entriesWF (dani_BeginProfiling tk pf) := by
  intro j
  refine ⟨?_, ?_, ?_, ?_⟩ <;> simp [dani_BeginProfiling, initProfiler, initEntry, W]

/-- C2: for three-level properly nested zones (P containing C containing
G, distinct nonzero indices, each run once from a fresh session whose
start read coincides with P's begin read and whose end read coincides
with P's end read), the exclusive ticks of the three entries sum to the
session's total elapsed ticks. -/
theorem C2_exclusive_sum (ticks pfs : Nat → Nat) (hmono : Monotone ticks)
    (hbound : ∀ n, ticks n < W) (nmP nmC nmG : String) (ip ic ig bp bcc bg : Nat)
    (hip : ip ≠ 0) (hic : ic ≠ 0) (hig : ig ≠ 0)
    (hpc : ip ≠ ic) (hpg : ip ≠ ig) (hcg : ic ≠ ig)
    (hipb : ip < DANI_PROFILER_ENTRIES_MAX) (hicb : ic < DANI_PROFILER_ENTRIES_MAX)
    (higb : ig < DANI_PROFILER_ENTRIES_MAX) :
    ((dani_EndProfiling
        (runF ticks pfs [ZTree.node nmP ip bp
          [ZTree.node nmC ic bcc [ZTree.node nmG ig bg []]]]
          ⟨dani_BeginProfiling (ticks 0) (pfs 0), 0⟩).prof
        (ticks 5) (pfs 5)).entries ip).exclusive_ticks +
    ((dani_EndProfiling
        (runF ticks pfs [ZTree.node nmP ip bp
          [ZTree.node nmC ic bcc [ZTree.node nmG ig bg []]]]
          ⟨dani_BeginProfiling (ticks 0) (pfs 0), 0⟩).prof
        (ticks 5) (pfs 5)).entries ic).exclusive_ticks +
    ((dani_EndProfiling
        (runF ticks pfs [ZTree.node nmP ip bp
          [ZTree.node nmC ic bcc [ZTree.node nmG ig bg []]]]
          ⟨dani_BeginProfiling (ticks 0) (pfs 0), 0⟩).prof
        (ticks 5) (pfs 5)).entries ig).exclusive_ticks =
      sub64
        (dani_EndProfiling
          (runF ticks pfs [ZTree.node nmP ip bp
            [ZTree.node nmC ic bcc [ZTree.node nmG ig bg []]]]
            ⟨dani_BeginProfiling (ticks 0) (pfs 0), 0⟩).prof
          (ticks 5) (pfs 5)).end_ticks
        (dani_EndProfiling
          (runF ticks pfs [ZTree.node nmP ip bp
            [ZTree.node nmC ic bcc [ZTree.node nmG ig bg []]]]
            ⟨dani_BeginProfiling (ticks 0) (pfs 0), 0⟩).prof
          (ticks 5) (pfs 5)).start_ticks ∧
    sub64
      (dani_EndProfiling
        (runF ticks pfs [ZTree.node nmP ip bp
          [ZTree.node nmC ic bcc [ZTree.node nmG ig bg []]]]
          ⟨dani_BeginProfiling (ticks 0) (pfs 0), 0⟩).prof
        (ticks 5) (pfs 5)).end_ticks
      (dani_EndProfiling
        (runF ticks pfs [ZTree.node nmP ip bp
          [ZTree.node nmC ic bcc [ZTree.node nmG ig bg []]]]
          ⟨dani_BeginProfiling (ticks 0) (pfs 0), 0⟩).prof
        (ticks 5) (pfs 5)).start_ticks = ticks 5 - ticks 0 := by
  have hpc2 : ¬(ic = ip) := fun h => hpc h.symm
  have hpg2 : ¬(ig = ip) := fun h => hpg h.symm
  have hcg2 : ¬(ig = ic) := fun h => hcg h.symm
  have hip0 : ¬((0 : Nat) = ip) := fun h => hip h.symm
  have hic0 : ¬((0 : Nat) = ic) := fun h => hic h.symm
  have hig0 : ¬((0 : Nat) = ig) := fun h => hig h.symm
  have m01 : ticks 0 ≤ ticks 1 := hmono (by omega)
  have m12 : ticks 1 ≤ ticks 2 := hmono (by omega)
  have m23 : ticks 2 ≤ ticks 3 := hmono (by omega)
  have m34 : ticks 3 ≤ ticks 4 := hmono (by omega)
  have m45 : ticks 4 ≤ ticks 5 := hmono (by omega)
  have hb5 := hbound 5
  have hb4 := hbound 4
  have hb3 := hbound 3
  have hb2 := hbound 2
  have hb1 := hbound 1
  have hb0 := hbound 0
  simp only [W] at hb0 hb1 hb2 hb3 hb4 hb5
  obtain ⟨-, -, hst, -, -, -, hmain, -⟩ :=
    runF_run ticks pfs [ZTree.node nmP ip bp
        [ZTree.node nmC ic bcc [ZTree.node nmG ig bg []]]]
      ⟨dani_BeginProfiling (ticks 0) (pfs 0), 0⟩ (beginProfiling_WF (ticks 0) (pfs 0))
  dsimp only at hst hmain
  have hst2 : (runF ticks pfs [ZTree.node nmP ip bp
      [ZTree.node nmC ic bcc [ZTree.node nmG ig bg []]]]
      ⟨dani_BeginProfiling (ticks 0) (pfs 0), 0⟩).prof.start_ticks = ticks 0 := by
    rw [hst]
    simp [dani_BeginProfiling, initProfiler]
  have hPe := (hmain ip).1
  have hCe := (hmain ic).1
  have hGe := (hmain ig).1
  constructor
  · simp only [dani_EndProfiling]
    rw [hPe, hCe, hGe, hst2, sub64_int]
    simp [dani_BeginProfiling, initProfiler, initEntry, ownF, subF, outerF, eF, szF,
      hpc, hpg, hcg, hpc2, hpg2, hcg2, hip0, hic0, hig0]
    simp only [W]
    omega
  · simp only [dani_EndProfiling]
    rw [hst2, sub64_int]
    simp only [W]
    omega

/-- C3 (amended): after any properly nested balanced run from a freshly
reset profiler with monotone tick reads and all zone indices nonzero,
every entry other than the reserved root entry 0 satisfies
exclusive <= inclusive, and inclusive is bounded by the tick span of the
run; the root entry 0 itself retains a wrapped (underflowed) exclusive
count and is excluded. -/
theorem C3_exclusive_le_inclusive (ticks pfs : Nat → Nat) (hmono : Monotone ticks)
    (hbound : ∀ n, ticks n < W) (ts : List ZTree)
    (hv : ∀ j2, j2 ∈ idxF ts → j2 ≠ 0) (j : Nat) (hj : j ≠ 0) :
    ((runF ticks pfs ts ⟨initProfiler, 0⟩).prof.entries j).exclusive_ticks ≤
      ((runF ticks pfs ts ⟨initProfiler, 0⟩).prof.entries j).inclusive_ticks ∧
    ((runF ticks pfs ts ⟨initProfiler, 0⟩).prof.entries j).inclusive_ticks ≤
      ticks (0 + 2 * szF ts) - ticks 0 := by
  have hj0 : ¬((0 : Nat) = j) := fun h => hj h.symm
  obtain ⟨-, -, -, -, -, -, hmain, -⟩ :=
    runF_run ticks pfs ts ⟨initProfiler, 0⟩ initProfiler_WF
  obtain ⟨he, hi, -, -⟩ := hmain j
  dsimp only at he hi
  have hcur : initProfiler.current_index = 0 := rfl
  rw [hcur, if_neg hj0] at he
  have hent : initProfiler.entries j = initEntry := rfl
  rw [hent] at he hi
  simp only [initEntry] at he hi
  obtain ⟨hg1, hg2, hg3, hg4, hg5⟩ := ghost_bounds ticks hmono ts 0 j
  have hfe := eF_le ticks hmono ts 0
  have hb := hbound (0 + 2 * szF ts)
  have hb0 := hbound 0
  simp only [W] at he hi hb hb0
  constructor
  · rw [he, hi]
    omega
  · rw [hi]
    omega

/-- Counterexample to C3 as stated: after one zone at index 1 with
advancing ticks, the reserved root entry 0 has wrapped exclusive ticks
(2 to the 64 minus 1) exceeding its inclusive ticks (0), so the
invariant fails at entry 0. -/
theorem C3_counterexample :
    ¬(((runF (fun n => n) (fun _ => 0) [ZTree.node "A" 1 0 []]
        ⟨initProfiler, 0⟩).prof.entries 0).exclusive_ticks ≤
      ((runF (fun n => n) (fun _ => 0) [ZTree.node "A" 1 0 []]
        ⟨initProfiler, 0⟩).prof.entries 0).inclusive_ticks) := by
  obtain ⟨-, -, -, -, -, -, hmain, -⟩ :=
    runF_run (fun n => n) (fun _ => 0) [ZTree.node "A" 1 0 []]
      ⟨initProfiler, 0⟩ initProfiler_WF
  obtain ⟨he, hi, -, -⟩ := hmain 0
  dsimp only at he hi
  rw [he, hi]
  simp [ownF, subF, outerF, eF, szF, initProfiler, initEntry]
  simp only [W]
  omega

/-- Witness for C3 (amended) at a one-zone forest with identity ticks. -/
theorem C3_exclusive_le_inclusive_witness :
    (∀ j2, j2 ∈ idxF [ZTree.node "A" 1 0 []] → j2 ≠ 0) ∧ (1 : Nat) ≠ 0 ∧
    (((runF (fun _ => 0) (fun _ => 0) [ZTree.node "A" 1 0 []]
        ⟨initProfiler, 0⟩).prof.entries 1).exclusive_ticks ≤
      ((runF (fun _ => 0) (fun _ => 0) [ZTree.node "A" 1 0 []]
        ⟨initProfiler, 0⟩).prof.entries 1).inclusive_ticks ∧
     ((runF (fun _ => 0) (fun _ => 0) [ZTree.node "A" 1 0 []]
        ⟨initProfiler, 0⟩).prof.entries 1).inclusive_ticks ≤ 0 - 0) :=
  ⟨by intro j2 hj2; simp [idxF] at hj2; omega, by decide,
   C3_exclusive_le_inclusive (fun _ => 0) (fun _ => 0)
     monotone_const (fun _ => by show (0 : Nat) < W; decide)
     [ZTree.node "A" 1 0 []]
     (by intro j2 hj2; simp [idxF] at hj2; omega) 1 (by decide)⟩

/-- C9: with every zone index nonzero, the reserved root entry 0 keeps
inclusive ticks 0 (its hit, byte, page-fault counters and name are also
untouched; only its exclusive counter is mutated by the parent
subtraction of top-level zones), and the reporting loop, which prints
exactly the entries with nonzero inclusive ticks, never prints it. -/
theorem C9_root_entry_not_printed (ticks pfs : Nat → Nat) (ts : List ZTree)
    (hv : ∀ j2, j2 ∈ idxF ts → j2 ≠ 0) :
    ((runF ticks pfs ts ⟨initProfiler, 0⟩).prof.entries 0).inclusive_ticks = 0 ∧
    ((runF ticks pfs ts ⟨initProfiler, 0⟩).prof.entries 0).hit_counter = 0 ∧
    ((runF ticks pfs ts ⟨initProfiler, 0⟩).prof.entries 0).processed_bytes_counter = 0 ∧
    ((runF ticks pfs ts ⟨initProfiler, 0⟩).prof.entries 0).name = initEntry.name ∧
    ((runF ticks pfs ts ⟨initProfiler, 0⟩).prof.entries 0).page_fault_counter = 0 ∧
    0 ∉ printedIndices (runF ticks pfs ts ⟨initProfiler, 0⟩).prof ∧
    (∀ (q : dani_profiler) (i : Nat), i ∈ printedIndices q →
      (q.entries i).inclusive_ticks ≠ 0) := by
  have h0 : (0 : Nat) ∉ idxF ts := fun h => hv 0 h rfl
  obtain ⟨hz1, hz2, hz3, hz4, hz5⟩ := ghost_zero ticks ts 0 0 h0
  obtain ⟨-, -, -, -, -, -, hmain, hframe⟩ :=
    runF_run ticks pfs ts ⟨initProfiler, 0⟩ initProfiler_WF
  obtain ⟨-, hi, hh, hb⟩ := hmain 0
  obtain ⟨hn, hp, -, -⟩ := hframe 0 h0
  dsimp only at hi hh hb hn hp
  have hent : initProfiler.entries 0 = initEntry := rfl
  rw [hent] at hi hh hb hn hp
  simp only [initEntry] at hi hh hb hn hp
  rw [hz3] at hi
  rw [hz4] at hh
  rw [hz5] at hb
  have hizero : ((runF ticks pfs ts ⟨initProfiler, 0⟩).prof.entries 0).inclusive_ticks = 0 := by
    rw [hi]
    simp
  refine ⟨hizero, by rw [hh]; simp, by rw [hb]; simp, hn, hp, ?_, ?_⟩
  · intro hmem
    simp only [printedIndices, List.mem_filter, decide_eq_true_eq] at hmem
    exact hmem.2 hizero
  · intro q i hmem
    simp only [printedIndices, List.mem_filter, decide_eq_true_eq] at hmem
    exact hmem.2

/-- Witness for C9 at a one-zone forest. -/
theorem C9_root_entry_not_printed_witness :
    (∀ j2, j2 ∈ idxF [ZTree.node "B" 1 0 []] → j2 ≠ 0) ∧
    ((runF (fun n => n) (fun _ => 0) [ZTree.node "B" 1 0 []]
        ⟨initProfiler, 0⟩).prof.entries 0).inclusive_ticks = 0 ∧
    0 ∉ printedIndices (runF (fun n => n) (fun _ => 0) [ZTree.node "B" 1 0 []]
        ⟨initProfiler, 0⟩).prof :=
  ⟨by intro j2 hj2; simp [idxF] at hj2; omega,
   (C9_root_entry_not_printed (fun n => n) (fun _ => 0) [ZTree.node "B" 1 0 []]
     (by intro j2 hj2; simp [idxF] at hj2; omega)).1,
   (C9_root_entry_not_printed (fun n => n) (fun _ => 0) [ZTree.node "B" 1 0 []]
     (by intro j2 hj2; simp [idxF] at hj2; omega)).2.2.2.2.2.1⟩

/-- Witness for C2 at constant tick reads and indices 1, 2, 3. -/
theorem C2_exclusive_sum_witness :
    (1 : Nat) ≠ 2 ∧ (1 : Nat) ≠ 3 ∧ (2 : Nat) ≠ 3 ∧
    sub64
      (dani_EndProfiling
        (runF (fun _ => 0) (fun _ => 0) [ZTree.node "P" 1 0
          [ZTree.node "C" 2 0 [ZTree.node "G" 3 0 []]]]
          ⟨dani_BeginProfiling 0 0, 0⟩).prof
        0 0).end_ticks
      (dani_EndProfiling
        (runF (fun _ => 0) (fun _ => 0) [ZTree.node "P" 1 0
          [ZTree.node "C" 2 0 [ZTree.node "G" 3 0 []]]]
          ⟨dani_BeginProfiling 0 0, 0⟩).prof
        0 0).start_ticks = 0 - 0 :=
  ⟨by decide, by decide, by decide,
   (C2_exclusive_sum (fun _ => 0) (fun _ => 0) monotone_const
     (fun _ => by show (0 : Nat) < W; decide) "P" "C" "G" 1 2 3 0 0 0
     (by decide) (by decide) (by decide) (by decide) (by decide) (by decide)
     (by decide) (by decide) (by decide)).2⟩

theorem szF_replicate (nm : String) (i bc : Nat) :
    ∀ N, szF (List.replicate N (ZTree.node nm i bc [])) = N := by
  intro N
  induction N with
  | zero => simp [szF]
  | succ N ih =>
    rw [List.replicate_succ, szF, ih]
    simp only [szF]
    omega

theorem cntF_replicate (nm : String) (i bc j : Nat) :
    ∀ N, cntF (List.replicate N (ZTree.node nm i bc [])) j =
      (if i = j then N else 0) := by
  intro N
  induction N with
  | zero => simp [cntF]
  | succ N ih =>
    rw [List.replicate_succ, cntF, ih]
    simp only [cntF]
    split_ifs <;> omega

/-- For a forest of N childless invocations of one zone, nothing is ever
subtracted, and both the per-entry elapsed total and the outermost total
coincide with the forest elapsed total on the zone's own index. -/
theorem ghosts_replicate (ticks : Nat → Nat) (nm : String) (i bc : Nat) :
    ∀ N c j,
      subF ticks (List.replicate N (ZTree.node nm i bc [])) c j = 0 ∧
      ownF ticks (List.replicate N (ZTree.node nm i bc [])) c j =
        (if i = j then eF ticks (List.replicate N (ZTree.node nm i bc [])) c else 0) ∧
      outerF ticks (List.replicate N (ZTree.node nm i bc [])) c j =
        (if i = j then eF ticks (List.replicate N (ZTree.node nm i bc [])) c else 0) := by
  intro N
  induction N with
  | zero =>
    intro c j
    simp [subF, ownF, outerF, eF]
  | succ N ih =>
    intro c j
    obtain ⟨ih1, ih2, ih3⟩ := ih (c + 1 + 2 * szF ([] : List ZTree) + 1) j
    rw [List.replicate_succ]
    simp only [subF, ownF, outerF, eF, ih1, ih2, ih3]
    by_cases h : i = j <;> simp [h, subF, ownF, outerF, eF]

/-- The forest elapsed total of N childless invocations equals the sum of
the N per-invocation elapsed tick counts, under monotone tick reads. -/
theorem eF_replicate_sum (ticks : Nat → Nat) (hmono : Monotone ticks)
    (nm : String) (i bc : Nat) :
    ∀ N c, eF ticks (List.replicate N (ZTree.node nm i bc [])) c =
      ((∑ k in Finset.range N, (ticks (c + 2 * k + 1) - ticks (c + 2 * k)) : Nat) : Int) := by
  intro N
  induction N with
  | zero =>
    intro c
    simp [eF]
  | succ N ih =>
    intro c
    rw [List.replicate_succ]
    simp only [eF, szF]
    norm_num
    rw [ih (c + 2)]
    rw [Finset.sum_range_succ']
    have hsum : (∑ k in Finset.range N,
        ((ticks (c + 2 * (k + 1) + 1) - ticks (c + 2 * (k + 1)) : Nat) : Int)) =
        ∑ k in Finset.range N,
        ((ticks (c + 2 + 2 * k + 1) - ticks (c + 2 + 2 * k) : Nat) : Int) := by
      refine Finset.sum_congr rfl (fun k _ => ?_)
      have e1 : c + 2 * (k + 1) + 1 = c + 2 + 2 * k + 1 := by omega
      have e2 : c + 2 * (k + 1) = c + 2 + 2 * k := by omega
      rw [e1, e2]
    rw [hsum]
    have e3 : c + 2 * 0 + 1 = c + 1 := by omega
    have e4 : c + 2 * 0 = c := by omega
    rw [e3, e4]
    have m : ticks c ≤ ticks (c + 1) := hmono (by omega)
    push_cast
    omega

/-- C4 (amended): a single childless zone at a nonzero index entered and
exited N times (1 <= N < 2 to the 64) from a freshly reset profiler with
monotone tick reads ends with exclusive = inclusive = the sum of the N
per-invocation elapsed tick counts, and hit counter N.  (For N at or
beyond 2 to the 64 the u64 hit counter wraps, so the bound is needed.) -/
theorem C4_single_zone_accumulation (ticks pfs : Nat → Nat) (hmono : Monotone ticks)
    (hbound : ∀ n, ticks n < W) (nm : String) (i bc N : Nat)
    (hi : i ≠ 0) (hib : i < DANI_PROFILER_ENTRIES_MAX) (hN : 1 ≤ N) (hNW : N < W) :
    ((runF ticks pfs (List.replicate N (ZTree.node nm i bc []))
        ⟨initProfiler, 0⟩).prof.entries i).exclusive_ticks =
      ((runF ticks pfs (List.replicate N (ZTree.node nm i bc []))
        ⟨initProfiler, 0⟩).prof.entries i).inclusive_ticks ∧
    ((runF ticks pfs (List.replicate N (ZTree.node nm i bc []))
        ⟨initProfiler, 0⟩).prof.entries i).inclusive_ticks =
      ∑ k in Finset.range N, (ticks (2 * k + 1) - ticks (2 * k)) ∧
    ((runF ticks pfs (List.replicate N (ZTree.node nm i bc []))
        ⟨initProfiler, 0⟩).prof.entries i).hit_counter = N := by
  have hi0 : ¬((0 : Nat) = i) := fun h => hi h.symm
  obtain ⟨-, -, -, -, -, -, hmain, -⟩ :=
    runF_run ticks pfs (List.replicate N (ZTree.node nm i bc []))
      ⟨initProfiler, 0⟩ initProfiler_WF
  obtain ⟨he, hin, hh, -⟩ := hmain i
  dsimp only at he hin hh
  have hcur : initProfiler.current_index = 0 := rfl
  rw [hcur, if_neg hi0] at he
  have hent : initProfiler.entries i = initEntry := rfl
  rw [hent] at he hin hh
  simp only [initEntry] at he hin hh
  obtain ⟨hg1, hg2, hg3⟩ := ghosts_replicate ticks nm i bc N 0 i
  rw [if_pos rfl] at hg2 hg3
  rw [hg1, hg2] at he
  rw [hg3] at hin
  rw [cntF_replicate] at hh
  rw [if_pos rfl] at hh
  have hsum := eF_replicate_sum ticks hmono nm i bc N 0
  have hzarg : ∀ k, 0 + 2 * k = 2 * k := fun k => by omega
  have hsum2 : ∑ k in Finset.range N, (ticks (0 + 2 * k + 1) - ticks (0 + 2 * k)) =
      ∑ k in Finset.range N, (ticks (2 * k + 1) - ticks (2 * k)) := by
    refine Finset.sum_congr rfl (fun k _ => ?_)
    rw [hzarg k]
  rw [hsum2] at hsum
  have hnn := eF_nonneg ticks hmono (List.replicate N (ZTree.node nm i bc [])) 0
  have hle := eF_le ticks hmono (List.replicate N (ZTree.node nm i bc [])) 0
  have hb := hbound (0 + 2 * szF (List.replicate N (ZTree.node nm i bc [])))
  have hb0 := hbound 0
  rw [hsum] at he hin hnn hle
  simp only [W] at he hin hh hb hb0 hNW
  refine ⟨?_, ?_, ?_⟩
  · rw [he, hin]
    omega
  · rw [hin]
    omega
  · rw [hh]
    omega

/-- Counterexample to C4 as stated (for every N): at N = 2 to the 64 the
u64 hit counter wraps to 0 and no longer equals N. -/
theorem C4_counterexample :
    ((runF (fun _ => 0) (fun _ => 0)
        (List.replicate (2 ^ 64) (ZTree.node "z" 1 0 []))
        ⟨initProfiler, 0⟩).prof.entries 1).hit_counter ≠ 2 ^ 64 := by
  obtain ⟨-, -, -, -, -, -, hmain, -⟩ :=
    runF_run (fun _ => 0) (fun _ => 0)
      (List.replicate (2 ^ 64) (ZTree.node "z" 1 0 []))
      ⟨initProfiler, 0⟩ initProfiler_WF
  obtain ⟨-, -, hh, -⟩ := hmain 1
  dsimp only at hh
  rw [cntF_replicate] at hh
  rw [if_pos rfl] at hh
  have hent : initProfiler.entries 1 = initEntry := rfl
  rw [hent] at hh
  simp only [initEntry] at hh
  rw [hh]
  simp only [W]
  intro hcontra
  omega

/-- Witness for C4 (amended) at N = 2 with constant ticks. -/
theorem C4_single_zone_accumulation_witness :
    (1 : Nat) ≠ 0 ∧ (1 : Nat) ≤ 2 ∧ (2 : Nat) < W ∧
    (((runF (fun _ => 0) (fun _ => 0) (List.replicate 2 (ZTree.node "z" 1 0 []))
        ⟨initProfiler, 0⟩).prof.entries 1).exclusive_ticks =
      ((runF (fun _ => 0) (fun _ => 0) (List.replicate 2 (ZTree.node "z" 1 0 []))
        ⟨initProfiler, 0⟩).prof.entries 1).inclusive_ticks ∧
     ((runF (fun _ => 0) (fun _ => 0) (List.replicate 2 (ZTree.node "z" 1 0 []))
        ⟨initProfiler, 0⟩).prof.entries 1).inclusive_ticks =
      ∑ k in Finset.range 2, ((fun _ => 0) (2 * k + 1) - (fun _ => 0) (2 * k)) ∧
     ((runF (fun _ => 0) (fun _ => 0) (List.replicate 2 (ZTree.node "z" 1 0 []))
        ⟨initProfiler, 0⟩).prof.entries 1).hit_counter = 2) :=
  ⟨by decide, by decide, by show (2 : Nat) < W; decide,
   C4_single_zone_accumulation (fun _ => 0) (fun _ => 0) monotone_const
     (fun _ => by show (0 : Nat) < W; decide) "z" 1 0 2
     (by decide) (by decide) (by decide) (by show (2 : Nat) < W; decide)⟩
